import Mathlib

/-!
Verification of the rast-excel template-substitution engine.

This file shallowly embeds the core of the repository in Lean 4:

* `excel/cell.go` — `CellName` and `IndexToColumn` (0-based coordinates to
  A1-style labels; `IndexToColumn` is the bijective base-26 column naming,
  re-expressed with an explicit fuel argument to make the Go loop a total
  structural recursion; fuel `n` is proved sufficient).
* `template/registry.go` — `Registry.Register` / `Registry.Process`
  (ordered pattern list, substring match, first match wins).
* `template/handlers.go` — the built-in handlers.  Each handler is embedded
  as a function that returns the list of spreadsheet mutations (`Op`) it
  performs, in order.  Reads from the spreadsheet (cell styles, merge
  ranges, the day count of the current month) are passed in as parameters,
  since the spreadsheet engine (excelize) is an external collaborator; the
  work of each handler — which cells are written, with what values,
  formulas, labels and structural edits — is computed exactly as in the
  source.
* `processor/processor.go` — the sheet scanner: every non-empty cell of a
  text grid is dispatched through the registry; an error aborts the pass
  with the sheet name and cell label attached.
-/

namespace Rast

/-- One mutation of the spreadsheet model, as issued to the external
spreadsheet capability by the handlers.  Cell positions are the A1-style
labels actually passed in the source (`excel.CellName` output). -/
inductive Op where
  | setCellStr (sheet cell value : String)
  | setCellInt (sheet cell : String) (value : Int)
  | setCellFormula (sheet cell formula : String)
  | setCellStyle (sheet topLeft bottomRight : String) (styleID : Int)
  | insertRows (sheet : String) (row n : Int)
  | removeRow (sheet : String) (row : Int)
  | insertCols (sheet : String) (col : String) (n : Int)
  | mergeCell (sheet topLeft bottomRight : String)
  | setColWidth (sheet colStart colEnd : String) (width : Int)
  deriving DecidableEq, Repr

/-! ## String containment (Go `strings.Contains`) -/

/-- `listLeads pat hay` is true when `pat` occurs at the very start of
`hay` (Go's internal prefix test used by `strings.Contains`). -/
def listLeads : List Char → List Char → Bool
  | [], _ => true
  | _ :: _, [] => false
  | a :: as, b :: bs => a == b && listLeads as bs

/-- `listHasSub hay pat` is true when `pat` occurs contiguously somewhere in
`hay`; the empty pattern occurs in every string, as in Go. -/
def listHasSub : List Char → List Char → Bool
  | [], pat => pat.isEmpty
  | a :: t, pat => listLeads pat (a :: t) || listHasSub t pat

/-- Go `strings.Contains s sub`. -/
def strContains (s sub : String) : Bool := listHasSub s.data sub.data

/-! ## excel/cell.go -/

/-- The character code emitted for index `n`: `'A' + n % 26` in the Go loop. -/
def letterCode (n : Nat) : Nat := 65 + n % 26

/-- The Go loop of `IndexToColumn`, with an explicit fuel argument.  The
loop body prepends `'A' + n%26` and continues with `n/26 - 1` while the
index is non-negative; in the fueled form one step is taken per unit of
fuel and `indexToColumnCodes` supplies fuel `n`, which is enough
(`indexToColumnCodesAux_congr` below). -/
def indexToColumnCodesAux : Nat → Nat → List Nat
  | 0, n => [letterCode n]
  | fuel + 1, n =>
    if n < 26 then [letterCode n]
    else indexToColumnCodesAux fuel (n / 26 - 1) ++ [letterCode n]

/-- Character codes of the column name for 0-based index `n`. -/
def indexToColumnCodes (n : Nat) : List Nat := indexToColumnCodesAux n n

/-- `excel.IndexToColumn` for a non-negative index. -/
def IndexToColumnNat (n : Nat) : String :=
  String.mk ((indexToColumnCodes n).map Char.ofNat)

/-- `excel.IndexToColumn`.  For a negative argument the Go loop body never
runs and the empty string is returned. -/
def IndexToColumn (n : Int) : String :=
  if n < 0 then "" else IndexToColumnNat n.toNat

/-- `excel.CellName`: 0-based row and column to an A1-style reference. -/
def CellName (row col : Int) : String :=
  IndexToColumn col ++ toString (row + 1)

/-- Two fuel values at least as large as the index give the same codes. -/
theorem indexToColumnCodesAux_congr :
    ∀ f1 f2 n, n ≤ f1 → n ≤ f2 →
      indexToColumnCodesAux f1 n = indexToColumnCodesAux f2 n := by
  intro f1
  induction f1 with
  | zero =>
    intro f2 n h1 _
    interval_cases n
    cases f2 <;> simp [indexToColumnCodesAux]
  | succ f ih =>
    intro f2 n h1 h2
    cases f2 with
    | zero =>
      interval_cases n
      simp [indexToColumnCodesAux]
    | succ g =>
      by_cases hn : n < 26
      · simp [indexToColumnCodesAux, hn]
      · have hd := Nat.div_le_self n 26
        have hn26 : 26 ≤ n := by omega
        simp only [indexToColumnCodesAux, if_neg hn]
        rw [ih g (n / 26 - 1) (by omega) (by omega)]

/-- Unfolding equation for `indexToColumnCodes`, matching the shape of the
Go loop directly. -/
theorem indexToColumnCodes_eq (n : Nat) :
    indexToColumnCodes n =
      if n < 26 then [letterCode n]
      else indexToColumnCodes (n / 26 - 1) ++ [letterCode n] := by
  by_cases hn : n < 26
  · cases n with
    | zero => simp [indexToColumnCodes, indexToColumnCodesAux, hn]
    | succ m => simp [indexToColumnCodes, indexToColumnCodesAux, hn]
  · have hn26 : 26 ≤ n := by omega
    obtain ⟨m, rfl⟩ : ∃ m, n = m + 1 := ⟨n - 1, by omega⟩
    simp only [indexToColumnCodes, indexToColumnCodesAux, if_neg hn]
    have hrec : (m + 1) / 26 - 1 ≤ m := by
      have := Nat.div_le_self (m + 1) 26
      omega
    rw [indexToColumnCodesAux_congr m ((m + 1) / 26 - 1) ((m + 1) / 26 - 1)
        hrec (Nat.le_refl _)]

/-- The inverse reading of a column name: fold the letter codes in
bijective base 26 and subtract one.  This is the independent, spec-side
characterisation of the standard Excel column naming. -/
def colCodesToIndex (codes : List Nat) : Nat :=
  codes.foldl (fun a c => a * 26 + (c - 64)) 0 - 1

theorem indexToColumnCodes_foldl (n : Nat) :
    ∀ a : Nat,
      (indexToColumnCodes n).foldl (fun a c => a * 26 + (c - 64)) a =
        a * 26 ^ (indexToColumnCodes n).length + (n + 1) := by
  induction n using Nat.strong_induction_on with
  | _ n ih =>
    intro a
    rw [indexToColumnCodes_eq n]
    by_cases hn : n < 26
    · rw [if_pos hn]
      simp only [List.foldl_cons, List.foldl_nil, List.length_singleton,
        pow_one, letterCode]
      have : n % 26 = n := Nat.mod_eq_of_lt hn
      omega
    · have hn26 : 26 ≤ n := by omega
      have hlt : n / 26 - 1 < n := by
        have := Nat.div_le_self n 26
        omega
      rw [if_neg hn, List.foldl_append, List.length_append]
      simp only [List.foldl_cons, List.foldl_nil, List.length_singleton]
      rw [ih (n / 26 - 1) hlt a]
      have hdivpos : 1 ≤ n / 26 :=
        (Nat.le_div_iff_mul_le (by norm_num)).mpr (by omega)
      have hdm := Nat.div_add_mod n 26
      have hmod : letterCode n - 64 = n % 26 + 1 := by
        simp only [letterCode]
        omega
      rw [hmod, show n / 26 - 1 + 1 = n / 26 by omega, pow_succ]
      ring_nf
      omega

/-- Round trip: decoding the emitted column name recovers the index, for
every non-negative index.  This is the bijective-base-26 property. -/
theorem colCodesToIndex_indexToColumnCodes (n : Nat) :
    colCodesToIndex (indexToColumnCodes n) = n := by
  unfold colCodesToIndex
  rw [indexToColumnCodes_foldl n 0]
  omega

/-- C10: for every non-negative row and column index, `CellName(row, col)`
is `IndexToColumn(col)` followed by the decimal representation of `row+1`,
and `IndexToColumn` implements the standard bijective base-26 Excel column
naming: decoding the name in bijective base 26 recovers the index, and the
standard examples 0→"A", 25→"Z", 26→"AA", 51→"AZ", 52→"BA" hold. -/
theorem c10_cellname :
    (∀ row col : Nat,
       CellName row col = IndexToColumn col ++ toString ((row : Int) + 1)) ∧
    (∀ n : Nat, colCodesToIndex (indexToColumnCodes n) = n) ∧
    IndexToColumn 0 = "A" ∧ IndexToColumn 25 = "Z" ∧
    IndexToColumn 26 = "AA" ∧ IndexToColumn 51 = "AZ" ∧
    IndexToColumn 52 = "BA" := by
  refine ⟨fun row col => rfl, colCodesToIndex_indexToColumnCodes, ?_, ?_, ?_, ?_, ?_⟩
  all_goals decide

/-! ## template/registry.go -/

/-- The context a handler receives: sheet name, 0-based row and column of
the matched cell, and its raw text. -/
structure Ctx where
  sheet : String
  row : Int
  col : Int
  value : String

/-- A handler (`template.HandlerFunc`): given the cell context it either
fails with an error message or performs a list of spreadsheet mutations. -/
abbrev HandlerFun := Ctx → Except String (List Op)

/-- One registered (pattern, handler) entry. -/
structure REntry where
  pattern : String
  handler : HandlerFun

/-- `template.Registry`: the ordered list of entries; `Register` appends,
so list order is registration order. -/
structure Registry where
  handlers : List REntry

/-- The scan loop of `Registry.Process`: entries are tried in order; the
first whose pattern is contained in the cell value has its handler run,
and the loop then returns — `(false, err, ·)` when the handler failed,
`(true, none, ·)` when it succeeded; `(false, none, [])` if no entry
matches. -/
def processEntries : List REntry → Ctx → Bool × Option String × List Op
  | [], _ => (false, none, [])
  | e :: rest, ctx =>
    if strContains ctx.value e.pattern then
      match e.handler ctx with
      | Except.error err => (false, some err, [])
      | Except.ok ops => (true, none, ops)
    else processEntries rest ctx

/-- `Registry.Process` from `template/registry.go`. -/
def Registry.Process (r : Registry) (ctx : Ctx) : Bool × Option String × List Op :=
  processEntries r.handlers ctx

/-- C2 counterexample: a registry whose single entry matches the cell text
but whose handler errors.  `Process` returns `matched = false` together
with the error, whereas the claim states `(matched=true, handlerError)`
whenever a match is found. -/
theorem c2_counterexample :
    strContains "a{{x}}b" "{{x}}" = true ∧
    Registry.Process ⟨[⟨"{{x}}", fun _ => Except.error "boom"⟩]⟩
        ⟨"S", 0, 0, "a{{x}}b"⟩ =
      (false, some "boom", []) := by
  exact ⟨by decide, rfl⟩

/-- C2 (amended): `Registry.Process` scans entries in registration order
and runs only the handler of the first entry whose pattern is a substring
of the cell text (`List.find?` order); it returns `(true, nil)` when that
handler succeeds, `(false, err)` when it fails, and `(false, nil)` when no
entry matches. -/
theorem c2_first_match_contract (entries : List REntry) (ctx : Ctx) :
    Registry.Process ⟨entries⟩ ctx =
      match entries.find? (fun e => strContains ctx.value e.pattern) with
      | none => (false, none, [])
      | some e =>
        match e.handler ctx with
        | Except.error err => (false, some err, [])
        | Except.ok ops => (true, none, ops) := by
  induction entries with
  | nil => rfl
  | cons e rest ih =>
    cases h : strContains ctx.value e.pattern with
    | true =>
      rw [List.find?_cons_of_pos _ (by simpa using h)]
      simp [Registry.Process, processEntries, h]
    | false =>
      rw [List.find?_cons_of_neg _ (by simpa using h)]
      simpa [Registry.Process, processEntries, h] using ih

/-! ## template/handlers.go — employee rows -/

/-- `domain.Employee`. -/
structure Employee where
  Id : Int
  FullName : String
  TableID : String
  JobPosition : String
  Attendance : List String
  deriving DecidableEq, Repr

/-- A default record used only for safe indexing in theorem statements. -/
def defaultEmp : Employee := ⟨0, "", "", "", []⟩

/-- The fixed employee columns, in order (the `columns` table: id, full
name, table id, job position; every entry uses the centered style). -/
def columns : List (Employee → String) :=
  [fun e => toString e.Id, fun e => e.FullName,
   fun e => e.TableID, fun e => e.JobPosition]

/-- `template.AttendanceStartCol`: 0-based column where attendance data
begins for an employee section starting at `employeeCol`. -/
def AttendanceStartCol (employeeCol : Int) : Int :=
  employeeCol + columns.length

/-- The fixed-column loop of `writeEmployeeRow`: for each column
definition, write the extracted value and apply the (centered) style.
`centeredStyle` is the handle the style cache returns for "centered". -/
def writeFixedLoop (centeredStyle : Int) (sheet : String) (row col : Int) :
    Nat → List (Employee → String) → Employee → List Op
  | _, [], _ => []
  | c, d :: rest, emp =>
    Op.setCellStr sheet (CellName row (col + (c : Int))) (d emp) ::
    Op.setCellStyle sheet (CellName row (col + (c : Int)))
      (CellName row (col + (c : Int))) centeredStyle ::
    writeFixedLoop centeredStyle sheet row col (c + 1) rest emp

/-- The attendance loop of `writeEmployeeRow`: one centered cell per
attendance value, starting at `attStart`. -/
def writeAttendance (centeredStyle : Int) (sheet : String) (row : Int) :
    Int → Nat → List String → List Op
  | _, _, [] => []
  | attStart, i, att :: rest =>
    Op.setCellStr sheet (CellName row (attStart + (i : Int))) att ::
    Op.setCellStyle sheet (CellName row (attStart + (i : Int)))
      (CellName row (attStart + (i : Int))) centeredStyle ::
    writeAttendance centeredStyle sheet row attStart (i + 1) rest

/-- `writeEmployeeRow`: the fixed descriptive columns followed by the
attendance block, which starts at `col + len(columns)`. -/
def writeEmployeeRow (centeredStyle : Int) (sheet : String) (row col : Int)
    (emp : Employee) : List Op :=
  writeFixedLoop centeredStyle sheet row col 0 columns emp ++
  writeAttendance centeredStyle sheet row (col + columns.length) 0 emp.Attendance

/-- The employee loop of `writeEmployees`: `for i, emp := range employees`
writes employee `i` at row `row + i`. -/
def writeRowsLoop (centeredStyle : Int) (sheet : String) (row col : Int) :
    Nat → List Employee → List Op
  | _, [] => []
  | i, emp :: rest =>
    writeEmployeeRow centeredStyle sheet (row + (i : Int)) col emp ++
    writeRowsLoop centeredStyle sheet row col (i + 1) rest

/-- `writeEmployees` (the `\x7b\x7bstart_process\x7d\x7d` handler body):
remove the template row, insert `len(employees)` blank rows at the same
position, then write one row per employee. -/
def writeEmployees (centeredStyle : Int) (sheet : String) (row col : Int)
    (emps : List Employee) : List Op :=
  Op.removeRow sheet (row + 1) ::
  Op.insertRows sheet (row + 1) (emps.length : Int) ::
  writeRowsLoop centeredStyle sheet row col 0 emps

theorem writeRowsLoop_eq (cs : Int) (sheet : String) (row col : Int) :
    ∀ (emps : List Employee) (i : Nat),
      writeRowsLoop cs sheet row col i emps =
        (List.range emps.length).flatMap
          (fun j => writeEmployeeRow cs sheet (row + ((i + j : Nat) : Int)) col
            (emps.getD j defaultEmp)) := by
  intro emps
  induction emps with
  | nil => intro i; simp [writeRowsLoop]
  | cons e rest ih =>
    intro i
    rw [writeRowsLoop, List.length_cons, List.range_succ_eq_map]
    simp only [List.flatMap_cons, List.flatMap_map, List.getD_cons_zero,
      Nat.add_zero, Nat.succ_eq_add_one]
    rw [ih (i + 1)]
    congr 1
    apply List.flatMap_congr
    intro j _
    have : i + 1 + j = i + (j + 1) := by omega
    simp [this]

/-- Membership of a single attendance write in the attendance loop. -/
theorem writeAttendance_mem (cs : Int) (sheet : String) (row : Int)
    (attStart : Int) :
    ∀ (atts : List String) (i j : Nat), j < atts.length →
      Op.setCellStr sheet (CellName row (attStart + ((i + j : Nat) : Int)))
          (atts.getD j "") ∈
        writeAttendance cs sheet row attStart i atts := by
  intro atts
  induction atts with
  | nil => intro i j hj; simp at hj
  | cons a rest ih =>
    intro i j hj
    cases j with
    | zero => simp [writeAttendance]
    | succ j =>
      have hmem := ih (i + 1) j (by simpa using hj)
      have : i + 1 + j = i + (j + 1) := by omega
      rw [this] at hmem
      simp only [writeAttendance, List.getD_cons_succ]
      exact List.mem_cons_of_mem _ (List.mem_cons_of_mem _ hmem)

/-- C4: for every non-empty employee list, the `\x7b\x7bstart_process\x7d\x7d`
handler first removes the template row and inserts exactly
`len(employees)` rows at that position, then writes exactly one row block
per employee in input order — employee `i` at row `row + i` — and each
row's attendance values occupy the columns starting immediately after the
four fixed descriptive columns: value `j` of employee `i` is written at
column `col + 4 + j`. -/
theorem c4_employee_rows (cs : Int) (sheet : String) (row col : Int)
    (emps : List Employee) (hne : emps ≠ []) :
    writeEmployees cs sheet row col emps =
      Op.removeRow sheet (row + 1) ::
      Op.insertRows sheet (row + 1) (emps.length : Int) ::
      (List.range emps.length).flatMap
        (fun i => writeEmployeeRow cs sheet (row + (i : Int)) col
          (emps.getD i defaultEmp)) ∧
    (∀ i j : Nat, i < emps.length →
      j < (emps.getD i defaultEmp).Attendance.length →
      Op.setCellStr sheet (CellName (row + (i : Int)) (col + 4 + (j : Int)))
          ((emps.getD i defaultEmp).Attendance.getD j "") ∈
        writeEmployees cs sheet row col emps) := by
  constructor
  · rw [writeEmployees, writeRowsLoop_eq]
    simp
  · intro i j hi hj
    rw [writeEmployees, writeRowsLoop_eq]
    refine List.mem_cons_of_mem _ (List.mem_cons_of_mem _ ?_)
    rw [List.mem_flatMap]
    refine ⟨i, List.mem_range.mpr hi, ?_⟩
    simp only [Nat.zero_add]
    rw [writeEmployeeRow]
    refine List.mem_append_right _ ?_
    have h := writeAttendance_mem cs sheet (row + (i : Int))
      (col + columns.length) (emps.getD i defaultEmp).Attendance 0 j hj
    simp only [Nat.zero_add] at h
    have hcol : col + (columns.length : Int) + (j : Int) = col + 4 + (j : Int) := by
      simp [columns]
    rwa [hcol] at h

/-- C7: `AttendanceStartCol c` is `c` plus the number of fixed descriptive
columns (4), and it is exactly the column where `writeEmployeeRow` starts
the attendance block for a section beginning at column `c`: the row block
is the fixed columns followed by the attendance loop based at
`AttendanceStartCol c`, and the first attendance value is written at that
very column. -/
theorem c7_attendance_start (c : Int) :
    AttendanceStartCol c = c + 4 ∧
    (∀ cs sheet row emp,
      writeEmployeeRow cs sheet row c emp =
        writeFixedLoop cs sheet row c 0 columns emp ++
        writeAttendance cs sheet row (AttendanceStartCol c) 0 emp.Attendance) ∧
    (∀ cs sheet row a rest,
      (writeAttendance cs sheet row (AttendanceStartCol c) 0 (a :: rest)).head? =
        some (Op.setCellStr sheet (CellName row (AttendanceStartCol c)) a)) := by
  refine ⟨by simp [AttendanceStartCol, columns], fun cs sheet row emp => rfl,
    fun cs sheet row a rest => ?_⟩
  simp [writeAttendance]

/-- Witness for C4 at a concrete one-employee input. -/
theorem c4_witness :
    (([⟨1, "An", "001", "Eng", ["8", "W"]⟩] : List Employee) ≠ []) ∧
    writeEmployees 5 "S" 3 0 [⟨1, "An", "001", "Eng", ["8", "W"]⟩] =
      Op.removeRow "S" (3 + 1) ::
      Op.insertRows "S" (3 + 1)
        (([⟨1, "An", "001", "Eng", ["8", "W"]⟩] : List Employee).length : Int) ::
      (List.range ([⟨1, "An", "001", "Eng", ["8", "W"]⟩] : List Employee).length).flatMap
        (fun i => writeEmployeeRow 5 "S" (3 + (i : Int)) 0
          (([⟨1, "An", "001", "Eng", ["8", "W"]⟩] : List Employee).getD i defaultEmp)) :=
  ⟨by decide, (c4_employee_rows 5 "S" 3 0 _ (by decide)).1⟩

/-! ## template/handlers.go — formula keys -/

/-- `template.FormulaKey`: a placeholder and an optional formula
generator; `none` marks a style-only key. -/
structure FormulaKey where
  Key : String
  FormulaFn : Option (String → String)

/-- `template.CountIFFormula symbol value`: counts exact occurrences of
`symbol` in the attendance range, multiplied by `value`. -/
def CountIFFormula (symbol : String) (value : Int) : String → String :=
  fun cellRange =>
    "SUMPRODUCT((" ++ cellRange ++ "=\"" ++ symbol ++ "\")*" ++
      toString value ++ ")"

/-- `template.SumNumFormula`: sums the numeric attendance values. -/
def SumNumFormula : String → String :=
  fun cellRange =>
    "IFERROR(SUMPRODUCT(IFERROR(VALUE(" ++ cellRange ++ "),0)),0)"

/-- `template.CountNumFormula`: counts the numeric attendance cells. -/
def CountNumFormula : String → String :=
  fun cellRange =>
    "IFERROR(SUMPRODUCT(IFERROR(VALUE(" ++ cellRange ++ ")*0+1,0)),0)"

/-- The key scan of `combFormulaHandler.buildFormula`: collect, in
registration order, one formula fragment per key found in the cell text
(style-only keys set `matched` but add no fragment). -/
def buildFormulaParts (keys : List FormulaKey) (value attRange : String) :
    List String × Bool :=
  match keys with
  | [] => ([], false)
  | k :: rest =>
    let r := buildFormulaParts rest value attRange
    if strContains value k.Key then
      match k.FormulaFn with
      | some fn => (fn attRange :: r.1, true)
      | none => (r.1, true)
    else r

/-- `combFormulaHandler.buildFormula`: join all collected fragments with
`+` and wrap the combination so that a zero total displays as an empty
string — `IF(comb=0,"",(comb))`; the wrapper is applied to every combined
formula regardless of which keys contributed. -/
def buildFormula (keys : List FormulaKey) (value attRange : String) :
    String × Bool :=
  let r := buildFormulaParts keys value attRange
  if r.1 = [] then ("", r.2)
  else
    let combined := String.intercalate "+" r.1
    ("IF(" ++ combined ++ "=0,\"\",(" ++ combined ++ "))", true)

/-- The formula keys registered by `main.go` step 2. -/
def mainKeys : List FormulaKey :=
  [⟨"{{t}}", some (CountIFFormula "T" 1)⟩,
   ⟨"{{d}}", some (CountIFFormula "D" 1)⟩,
   ⟨"{{w}}", some (CountIFFormula "W" 1)⟩,
   ⟨"{{l}}", some (CountIFFormula "L" 1)⟩,
   ⟨"{{a}}", some (CountIFFormula "A" 1)⟩,
   ⟨"{{p}}", some (CountIFFormula "P" 1)⟩,
   ⟨"{{num_sum}}", some SumNumFormula⟩,
   ⟨"{{num_count}}", some CountNumFormula⟩,
   ⟨"{{}}", none⟩]

/-- C1: evaluation of `buildFormula` at the failing input.  A cell holding
only the numeric-sum key `\x7b\x7bnum_sum\x7d\x7d` gets its formula wrapped
in the same `IF(x=0,"",(x))` empty-on-zero wrapper as symbol-count keys, so
a zero numeric sum displays as an empty value, not as the literal `0` that
the claim (and the repository README) promise; the second conjunct shows
the fragments of a multi-key cell joined with `+` under that same wrapper. -/
theorem c1_zero_wrap_eval :
    buildFormula mainKeys "{{num_sum}}" "E2:AF2" =
      ("IF(IFERROR(SUMPRODUCT(IFERROR(VALUE(E2:AF2),0)),0)=0,\"\",(IFERROR(SUMPRODUCT(IFERROR(VALUE(E2:AF2),0)),0)))",
        true) ∧
    buildFormula mainKeys "{{t}}{{d}}" "E2:AF2" =
      ("IF(SUMPRODUCT((E2:AF2=\"T\")*1)+SUMPRODUCT((E2:AF2=\"D\")*1)=0,\"\",(SUMPRODUCT((E2:AF2=\"T\")*1)+SUMPRODUCT((E2:AF2=\"D\")*1)))",
        true) := by
  exact ⟨rfl, rfl⟩

/-- The body of one iteration of the `combFormulaHandler.handle` row loop:
build the combined formula over this row's attendance range; when no key
matched, `continue` (no ops); otherwise write the formula (when non-empty)
and apply the centered style at the placeholder's column. -/
def empRowOps (centeredStyle : Int) (attStart attEnd : Int)
    (keys : List FormulaKey) (sheet : String) (col : Int) (value : String)
    (empRow : Int) : List Op :=
  let attRange := CellName empRow attStart ++ ":" ++ CellName empRow attEnd
  let fm := buildFormula keys value attRange
  if fm.2 = false then []
  else
    (if fm.1 ≠ "" then
      [Op.setCellFormula sheet (CellName empRow col) fm.1]
     else []) ++
    [Op.setCellStyle sheet (CellName empRow col) (CellName empRow col)
      centeredStyle]

/-- `combFormulaHandler.handle` (the variant that clears the placeholder):
loop `empRow` from `row - employeeCount` up to `row - 1` — the block of
`employeeCount` rows directly above the placeholder, without any bounds
check — then clear the placeholder cell.  `days` stands for
`currentMonthDays()` and `attEnd = attStart + days - 1`. -/
def formulaHandle (days : Nat) (centeredStyle : Int)
    (employeeCount attStart : Int) (keys : List FormulaKey) (sheet : String)
    (row col : Int) (value : String) : List Op :=
  let attEnd := attStart + (days : Int) - 1
  let firstEmpRow := row - employeeCount
  ((List.range employeeCount.toNat).map
      (fun t : Nat => firstEmpRow + (t : Int))).flatMap
    (empRowOps centeredStyle attStart attEnd keys sheet col value) ++
  [Op.setCellStr sheet (CellName row col) ""]

/-- True when `op` writes (value, formula or style) at cell label `cell`. -/
def writesAt (cell : String) : Op → Bool
  | Op.setCellStr _ c _ => c == cell
  | Op.setCellFormula _ c _ => c == cell
  | Op.setCellStyle _ c _ _ => c == cell
  | _ => false

/-- C3 counterexample: with 3 configured employees and the placeholder at
row 1, the block above runs out of range (rows -2 and -1 do not exist),
yet the row loop does issue writes for those rows — here a write at the
invalid label "F-1" (row index -2, column F).  This refutes the claim that
the loop produces no writes for out-of-range rows. -/
theorem c3_counterexample :
    (formulaHandle 31 5 3 4 mainKeys "S" 1 5 "{{t}}").any (writesAt "F-1") =
      true := by
  decide

/-- C3 (amended): the row loop iterates over the full configured block of
`employeeCount` rows above the placeholder, including out-of-range rows,
and issues its write for every one of them — for each offset `t` into the
block, when the cell's keys match and produce a non-empty formula, a
formula write appears at `CellName (row - employeeCount + t) col`, whose
label has a non-positive row number when `row - employeeCount + t < 0`;
the rows are not skipped. -/
theorem c3_loop_writes_all_rows (days : Nat) (cs : Int)
    (employeeCount attStart : Int) (keys : List FormulaKey) (sheet : String)
    (row col : Int) (value : String) (t : Nat)
    (ht : t < employeeCount.toNat)
    (hm : (buildFormula keys value
        (CellName (row - employeeCount + (t : Int)) attStart ++ ":" ++
         CellName (row - employeeCount + (t : Int))
           (attStart + (days : Int) - 1))).2 = true)
    (hf : (buildFormula keys value
        (CellName (row - employeeCount + (t : Int)) attStart ++ ":" ++
         CellName (row - employeeCount + (t : Int))
           (attStart + (days : Int) - 1))).1 ≠ "") :
    Op.setCellFormula sheet (CellName (row - employeeCount + (t : Int)) col)
        (buildFormula keys value
          (CellName (row - employeeCount + (t : Int)) attStart ++ ":" ++
           CellName (row - employeeCount + (t : Int))
             (attStart + (days : Int) - 1))).1 ∈
      formulaHandle days cs employeeCount attStart keys sheet row col value := by
  rw [formulaHandle]
  refine List.mem_append_left _ ?_
  rw [List.mem_flatMap]
  refine ⟨row - employeeCount + (t : Int), ?_, ?_⟩
  · exact List.mem_map_of_mem
      (fun t : Nat => row - employeeCount + (t : Int))
      (List.mem_range.mpr ht)
  · rw [empRowOps]
    simp only [hm, Bool.true_eq_false, if_false, hf, if_pos, ne_eq,
      not_false_iff]
    simp [hf]

/-- Witness for C3's amended theorem: the out-of-range row -2 (offset 0 of
the block, `1 - 3 + 0`) receives its formula write. -/
theorem c3_witness :
    (0 < (3 : Int).toNat) ∧
    Op.setCellFormula "S" (CellName (1 - 3 + ((0 : Nat) : Int)) 5)
        (buildFormula mainKeys "{{t}}"
          (CellName (1 - 3 + ((0 : Nat) : Int)) 4 ++ ":" ++
           CellName (1 - 3 + ((0 : Nat) : Int)) (4 + ((31 : Nat) : Int) - 1))).1 ∈
      formulaHandle 31 5 3 4 mainKeys "S" 1 5 "{{t}}" :=
  ⟨by decide,
    c3_loop_writes_all_rows 31 5 3 4 mainKeys "S" 1 5 "{{t}}" 0 (by decide)
      (by decide) (by decide)⟩

/-! ## template/handlers.go — the day-expansion handler -/

/-- One header row of `handleDays`: merge across the day span, and when the
header cell's style handle (read before merging) is nonzero, re-apply it
across the span. -/
def headerMergeOps (sheet : String) (col : Int) (days : Nat)
    (headerRow : Int) (headerStyleID : Int) : List Op :=
  Op.mergeCell sheet (CellName headerRow col)
    (CellName headerRow (col + (days : Int) - 1)) ::
  (if headerStyleID ≠ 0 then
    [Op.setCellStyle sheet (CellName headerRow col)
      (CellName headerRow (col + (days : Int) - 1)) headerStyleID]
   else [])

/-- `handleDays`: insert `days - 1` columns immediately after the
placeholder column, merge (and restyle) the two header rows above, write
the day numbers `1..days` into the placeholder's row, copy the
placeholder's style across the span, and set the column width.  `days`
stands for `currentMonthDays()`; `h0`, `h1` and `styleID` are the style
handles read from the header cells and the placeholder cell. -/
def handleDays (days : Nat) (h0 h1 styleID : Int) (sheet : String)
    (row col : Int) : List Op :=
  Op.insertCols sheet (IndexToColumn (col + 1)) ((days : Int) - 1) ::
  (headerMergeOps sheet col days 0 h0 ++ headerMergeOps sheet col days 1 h1) ++
  (List.range days).map
    (fun i : Nat => Op.setCellInt sheet (CellName row (col + (i : Int)))
      ((i : Int) + 1)) ++
  [Op.setCellStyle sheet (CellName row col)
     (CellName row (col + (days : Int) - 1)) styleID,
   Op.setColWidth sheet (IndexToColumn col)
     (IndexToColumn (col + (days : Int) - 1)) 4]

/-- Recognises a day-number write. -/
def isDayWrite : Op → Bool
  | Op.setCellInt .. => true
  | _ => false

/-- Recognises a column insertion. -/
def isColInsert : Op → Bool
  | Op.insertCols .. => true
  | _ => false

theorem headerMergeOps_filter_isDayWrite (sheet : String) (col : Int)
    (days : Nat) (hr hs : Int) :
    (headerMergeOps sheet col days hr hs).filter isDayWrite = [] := by
  rw [headerMergeOps]
  by_cases h : hs ≠ 0 <;> simp [h, isDayWrite]

theorem headerMergeOps_filter_isColInsert (sheet : String) (col : Int)
    (days : Nat) (hr hs : Int) :
    (headerMergeOps sheet col days hr hs).filter isColInsert = [] := by
  rw [headerMergeOps]
  by_cases h : hs ≠ 0 <;> simp [h, isColInsert]

theorem dayMap_filter_isDayWrite (sheet : String) (row col : Int)
    (l : List Nat) :
    (l.map (fun i : Nat => Op.setCellInt sheet (CellName row (col + (i : Int)))
      ((i : Int) + 1))).filter isDayWrite =
    l.map (fun i : Nat => Op.setCellInt sheet (CellName row (col + (i : Int)))
      ((i : Int) + 1)) := by
  induction l with
  | nil => rfl
  | cons a t ih => simp [List.filter_cons, isDayWrite, ih]

theorem dayMap_filter_isColInsert (sheet : String) (row col : Int)
    (l : List Nat) :
    (l.map (fun i : Nat => Op.setCellInt sheet (CellName row (col + (i : Int)))
      ((i : Int) + 1))).filter isColInsert = [] := by
  induction l with
  | nil => rfl
  | cons a t ih => simp [List.filter_cons, isColInsert, ih]

/-- C5: for every day count `D` of the target month with `D` in
\x7b28,29,30,31\x7d, the day-expansion handler's trace contains exactly one
column insertion — `D-1` new columns immediately after the placeholder
column — and its integer-cell writes are exactly the `D` day-number cells
holding `1..D` in order in the placeholder's row. -/
theorem c5_days_expansion (days : Nat) (h0 h1 styleID : Int) (sheet : String)
    (row col : Int)
    (hd : days = 28 ∨ days = 29 ∨ days = 30 ∨ days = 31) :
    (handleDays days h0 h1 styleID sheet row col).filter isDayWrite =
      (List.range days).map
        (fun i : Nat => Op.setCellInt sheet (CellName row (col + (i : Int)))
          ((i : Int) + 1)) ∧
    (handleDays days h0 h1 styleID sheet row col).filter isColInsert =
      [Op.insertCols sheet (IndexToColumn (col + 1)) ((days : Int) - 1)] := by
  clear hd
  constructor
  · rw [handleDays]
    simp only [List.filter_cons, List.filter_append,
      headerMergeOps_filter_isDayWrite, dayMap_filter_isDayWrite]
    simp [isDayWrite]
  · rw [handleDays]
    simp only [List.filter_cons, List.filter_append,
      headerMergeOps_filter_isColInsert, dayMap_filter_isColInsert]
    simp [isColInsert]

/-- Witness for C5 at `D = 31`. -/
theorem c5_witness :
    ((31 : Nat) = 28 ∨ (31 : Nat) = 29 ∨ (31 : Nat) = 30 ∨ (31 : Nat) = 31) ∧
    (handleDays 31 2 3 4 "S" 2 1).filter isDayWrite =
      (List.range 31).map
        (fun i : Nat => Op.setCellInt "S" (CellName 2 (1 + (i : Int)))
          ((i : Int) + 1)) ∧
    (handleDays 31 2 3 4 "S" 2 1).filter isColInsert =
      [Op.insertCols "S" (IndexToColumn (1 + 1)) (((31 : Nat) : Int) - 1)] :=
  ⟨by decide,
    (c5_days_expansion 31 2 3 4 "S" 2 1 (by decide)).1,
    (c5_days_expansion 31 2 3 4 "S" 2 1 (by decide)).2⟩

/-! ## template/handlers.go — the marks (legend) handler -/

/-- `domain.Mark`: a legend entry, label plus abbreviation. -/
structure Mark where
  Name : String
  Key : String
  deriving DecidableEq, Repr

/-- `numericKey`: true when the key is non-empty and every rune is a
digit (Go `unicode.IsDigit`; the abbreviations used are ASCII). -/
def numericKey (key : String) : Bool :=
  if key = "" then false else key.data.all (fun r => r.isDigit)

/-- The filter at the top of `writeMarks`: marks whose key is a plain
number are skipped. -/
def filteredMarks (marks : List Mark) : List Mark :=
  marks.filter (fun m => !numericKey m.Key)

/-- The rune width of one mark's name plus key, `len([]rune ...)`. -/
def widthOf (m : Mark) : Nat := m.Name.length + m.Key.length

/-- The target rune width computed by `writeMarks`: the maximum
name+key width over the (already filtered) marks, plus `minPad = 4`. -/
def targetWidth (marks : List Mark) : Nat :=
  marks.foldl (fun tw m => if widthOf m > tw then widthOf m else tw) 0 + 4

/-- The rendered content of one legend row: name, underscore filler,
abbreviation; the pad length is clamped below at 1. -/
def markContent (tw : Nat) (m : Mark) : String :=
  let padLen := tw - widthOf m
  let padLen := if padLen < 1 then 1 else padLen
  m.Name ++ String.mk (List.replicate padLen '_') ++ m.Key

/-- `removePhantomRows`: sweep the last `n` sheet rows from the bottom. -/
def removePhantomRows (sheet : String) (n : Nat) : List Op :=
  (List.range n).map
    (fun i : Nat => Op.removeRow sheet ((1048576 : Int) - (i : Int)))

/-- The per-mark loop of `writeMarks`: re-apply the template merge (when
the placeholder was merged), write the padded content, copy the style. -/
def marksLoop (styleID mergeEndCol : Int) (sheet : String) (col : Int)
    (tw : Nat) (row : Int) : Nat → List Mark → List Op
  | _, [] => []
  | i, m :: rest =>
    ((if mergeEndCol > col then
        [Op.mergeCell sheet (CellName (row + (i : Int)) col)
          (CellName (row + (i : Int)) mergeEndCol)]
      else []) ++
     [Op.setCellStr sheet (CellName (row + (i : Int)) col) (markContent tw m),
      Op.setCellStyle sheet (CellName (row + (i : Int)) col)
        (CellName (row + (i : Int)) mergeEndCol) styleID]) ++
    marksLoop styleID mergeEndCol sheet col tw row (i + 1) rest

/-- `writeMarks` (the merged-cell variant): filter numeric keys, remove
the template row, sweep phantom rows, insert one row per mark, then write
the legend rows.  `styleID` is the placeholder style read before removal
and `mergeEndCol` the detected merge end column (equal to `col` when the
placeholder is unmerged). -/
def writeMarks (styleID mergeEndCol : Int) (sheet : String) (row col : Int)
    (marks0 : List Mark) : List Op :=
  let marks := filteredMarks marks0
  Op.removeRow sheet (row + 1) ::
  (removePhantomRows sheet marks.length ++
   (Op.insertRows sheet (row + 1) (marks.length : Int) ::
    marksLoop styleID mergeEndCol sheet col (targetWidth marks) row 0 marks))

theorem foldl_width_le_acc (l : List Mark) :
    ∀ a : Nat,
      a ≤ l.foldl (fun tw m => if widthOf m > tw then widthOf m else tw) a := by
  induction l with
  | nil => intro a; exact Nat.le_refl a
  | cons m t ih =>
    intro a
    refine Nat.le_trans ?_ (ih (if widthOf m > a then widthOf m else a))
    by_cases h : widthOf m > a <;> simp [h] <;> omega

theorem width_le_foldl (l : List Mark) :
    ∀ (a : Nat) (m : Mark), m ∈ l →
      widthOf m ≤ l.foldl (fun tw m => if widthOf m > tw then widthOf m else tw) a := by
  induction l with
  | nil => intro a m hm; simp at hm
  | cons x t ih =>
    intro a m hm
    rcases List.mem_cons.mp hm with h | h
    · subst h
      refine Nat.le_trans ?_ (foldl_width_le_acc t _)
      by_cases hx : widthOf m > a <;> simp [hx] <;> omega
    · exact ih _ m h

theorem markContent_length (marks : List Mark) (m : Mark)
    (hm : m ∈ marks) :
    (markContent (targetWidth marks) m).length = targetWidth marks := by
  have hw : widthOf m ≤
      marks.foldl (fun tw m => if widthOf m > tw then widthOf m else tw) 0 :=
    width_le_foldl marks 0 m hm
  rw [markContent, targetWidth]
  set W := marks.foldl (fun tw m => if widthOf m > tw then widthOf m else tw) 0
  have hpad : ¬ (W + 4 - widthOf m < 1) := by omega
  simp only [hpad, if_false]
  rw [String.length_append, String.length_append]
  have : (String.mk (List.replicate (W + 4 - widthOf m) '_')).length =
      W + 4 - widthOf m := by
    simp [String.length]
  rw [this]
  unfold widthOf at hw ⊢
  omega

theorem marksLoop_setCellStr_mem (styleID mergeEndCol : Int) (sheet : String)
    (col : Int) (tw : Nat) (row : Int) :
    ∀ (ms : List Mark) (i : Nat) (s c v : String),
      Op.setCellStr s c v ∈ marksLoop styleID mergeEndCol sheet col tw row i ms →
      ∃ m ∈ ms, v = markContent tw m := by
  intro ms
  induction ms with
  | nil => intro i s c v h; simp [marksLoop] at h
  | cons m t ih =>
    intro i s c v h
    rw [marksLoop] at h
    rcases List.mem_append.mp h with h | h
    · rcases List.mem_append.mp h with h | h
      · by_cases hm : mergeEndCol > col <;> simp [hm] at h
      · rcases List.mem_cons.mp h with h | h
        · rw [Op.setCellStr.injEq] at h
          exact ⟨m, List.mem_cons_self m t, h.2.2⟩
        · rcases List.mem_cons.mp h with h | h
          · exact absurd h (by simp)
          · simp at h
    · obtain ⟨m', hm', hv⟩ := ih (i + 1) s c v h
      exact ⟨m', List.mem_cons_of_mem m hm', hv⟩

/-- C8: every legend-row string written by the marks handler — name,
underscore filler, abbreviation, for the marks surviving the
numeric-abbreviation filter — has the same total rune width, namely the
computed target width, so the abbreviation is right-aligned at the same
position in every row. -/
theorem c8_marks_width (styleID mergeEndCol : Int) (sheet : String)
    (row col : Int) (marks : List Mark) (s c v : String)
    (hmem : Op.setCellStr s c v ∈
      writeMarks styleID mergeEndCol sheet row col marks) :
    v.length = targetWidth (filteredMarks marks) := by
  rw [writeMarks] at hmem
  rcases List.mem_cons.mp hmem with h | h
  · exact absurd h (by simp)
  rcases List.mem_append.mp h with h | h
  · rw [removePhantomRows] at h
    obtain ⟨i, _, hbad⟩ := List.mem_map.mp h
    exact absurd hbad (by simp)
  rcases List.mem_cons.mp h with h | h
  · exact absurd h (by simp)
  obtain ⟨m, hm, hv⟩ :=
    marksLoop_setCellStr_mem styleID mergeEndCol sheet col
      (targetWidth (filteredMarks marks)) row (filteredMarks marks) 0 s c v h
  rw [hv]
  exact markContent_length (filteredMarks marks) m hm

/-- Witness for C8 at a concrete two-mark input: both rendered rows have
rune width 10. -/
theorem c8_witness :
    (Op.setCellStr "S" (CellName (2 + ((0 : Nat) : Int)) 0) "Ab_______K" ∈
      writeMarks 7 3 "S" 2 0 [⟨"Ab", "K"⟩, ⟨"Cdef", "XY"⟩, ⟨"Hours", "8"⟩]) ∧
    ("Ab_______K").length =
      targetWidth (filteredMarks [⟨"Ab", "K"⟩, ⟨"Cdef", "XY"⟩, ⟨"Hours", "8"⟩]) :=
  ⟨by decide,
    c8_marks_width 7 3 "S" 2 0 [⟨"Ab", "K"⟩, ⟨"Cdef", "XY"⟩, ⟨"Hours", "8"⟩]
      "S" (CellName (2 + ((0 : Nat) : Int)) 0) "Ab_______K" (by decide)⟩

/-! ## template/handlers.go — ReplaceHandler -/

/-- One key→value substitution pair (`replacePair`). -/
structure ReplacePair where
  key : String
  val : String
  deriving DecidableEq, Repr

/-- Left-to-right non-overlapping replacement over character lists, with a
fuel argument making the loop a total structural recursion; fuel
`src.length` is enough since every step consumes at least one character
when the pattern is non-empty (the empty pattern is special-cased in
`strReplaceAll`). -/
def replaceAllAux (pat rep : List Char) : Nat → List Char → List Char
  | 0, src => src
  | fuel + 1, src =>
    match src with
    | [] => []
    | a :: t =>
      if listLeads pat src then rep ++ replaceAllAux pat rep fuel (src.drop pat.length)
      else a :: replaceAllAux pat rep fuel t

/-- Go `strings.ReplaceAll s old new`: replace every non-overlapping
occurrence of `old`, scanning left to right; an empty `old` matches at the
start and after every rune. -/
def strReplaceAll (s old new : String) : String :=
  if old.data = [] then
    String.mk (new.data ++ s.data.flatMap (fun c => c :: new.data))
  else String.mk (replaceAllAux old.data new.data s.data.length s.data)

/-- The substitution loop of `ReplaceHandler.apply`: apply
`strings.ReplaceAll` for every added pair in order. -/
def applyPairs (pairs : List ReplacePair) (value : String) : String :=
  pairs.foldl (fun s p => strReplaceAll s p.key p.val) value

/-- The ops of `ReplaceHandler.apply`: write the fully substituted text
back, and restore the cell's style when its prior handle (`styleID`, the
`GetCellStyle` result at the dispatched cell) is nonzero. -/
def replaceApplyOps (pairs : List ReplacePair) (styleID : Int) (ctx : Ctx) :
    List Op :=
  Op.setCellStr ctx.sheet (CellName ctx.row ctx.col)
    (applyPairs pairs ctx.value) ::
  (if styleID ≠ 0 then
    [Op.setCellStyle ctx.sheet (CellName ctx.row ctx.col)
      (CellName ctx.row ctx.col) styleID]
   else [])

/-- `ReplaceHandler.Register`: every added pair is registered as a
pattern, all sharing the single `apply` handler over the full pair list. -/
def replaceRegistry (pairs : List ReplacePair) (styleID : Int) : Registry :=
  ⟨pairs.map
    (fun p => ⟨p.key, fun ctx => Except.ok (replaceApplyOps pairs styleID ctx)⟩)⟩

theorem processEntries_replace (pairs : List ReplacePair) (styleID : Int)
    (ctx : Ctx) :
    ∀ sub : List ReplacePair,
      (∃ p ∈ sub, strContains ctx.value p.key = true) →
      processEntries
        (sub.map (fun p =>
          ⟨p.key, fun ctx => Except.ok (replaceApplyOps pairs styleID ctx)⟩))
        ctx =
      (true, none, replaceApplyOps pairs styleID ctx) := by
  intro sub
  induction sub with
  | nil => rintro ⟨p, hp, _⟩; simp at hp
  | cons q t ih =>
    rintro ⟨p, hp, hc⟩
    rw [List.map_cons, processEntries]
    by_cases hq : strContains ctx.value q.key
    · simp [hq]
    · simp only [hq, Bool.false_eq_true, if_false]
      rcases List.mem_cons.mp hp with h | h
      · subst h; exact absurd hc hq
      · exact ih ⟨p, h, hc⟩

/-- C9: when a cell's text contains at least one registered key, a single
dispatch through the registry built by `ReplaceHandler.Register` fires the
shared `apply` handler, which writes the text with every added pair
substituted (all occurrences, not only the pair whose key triggered the
match) and restores the cell's prior style exactly when its handle is
nonzero. -/
theorem c9_replace_all_pairs (pairs : List ReplacePair) (styleID : Int)
    (ctx : Ctx) (hmatch : ∃ p ∈ pairs, strContains ctx.value p.key = true) :
    Registry.Process (replaceRegistry pairs styleID) ctx =
      (true, none,
        Op.setCellStr ctx.sheet (CellName ctx.row ctx.col)
          (applyPairs pairs ctx.value) ::
        (if styleID ≠ 0 then
          [Op.setCellStyle ctx.sheet (CellName ctx.row ctx.col)
            (CellName ctx.row ctx.col) styleID]
         else [])) := by
  rw [Registry.Process, replaceRegistry]
  exact processEntries_replace pairs styleID ctx pairs hmatch

/-- Witness for C9: two pairs, a cell containing both keys (one twice);
the single dispatch replaces all three occurrences and restores the
nonzero style.  The final conjunct spells out the substituted text. -/
theorem c9_witness :
    Registry.Process
        (replaceRegistry [⟨"{{a}}", "X"⟩, ⟨"{{b}}", "Y"⟩] 7)
        ⟨"S", 0, 1, "{{a}} {{b}} {{a}}"⟩ =
      (true, none,
        Op.setCellStr "S" (CellName 0 1)
          (applyPairs [⟨"{{a}}", "X"⟩, ⟨"{{b}}", "Y"⟩] "{{a}} {{b}} {{a}}") ::
        (if (7 : Int) ≠ 0 then
          [Op.setCellStyle "S" (CellName 0 1) (CellName 0 1) 7]
         else [])) ∧
    applyPairs [⟨"{{a}}", "X"⟩, ⟨"{{b}}", "Y"⟩] "{{a}} {{b}} {{a}}" =
      "X Y X" :=
  ⟨c9_replace_all_pairs [⟨"{{a}}", "X"⟩, ⟨"{{b}}", "Y"⟩] 7
      ⟨"S", 0, 1, "{{a}} {{b}} {{a}}"⟩ ⟨⟨"{{a}}", "X"⟩, by decide⟩,
    by decide⟩

/-! ## processor/processor.go -/

/-- One cell of a sheet's text grid, with its 0-based coordinates. -/
structure CellEntry where
  row : Int
  col : Int
  value : String
  deriving DecidableEq, Repr

/-- The row-major cell stream of `processSheet`'s double loop over
`GetRows`. -/
def gridCells (rows : List (List String)) : List CellEntry :=
  rows.enum.flatMap (fun rc =>
    rc.2.enum.map (fun cv => ⟨(rc.1 : Int), (cv.1 : Int), cv.2⟩))

/-- The scan of `processSheet` over the cell stream: empty cells are
skipped without dispatch; each non-empty cell is dispatched through the
registry; on a dispatch error the scan stops at once and the error is
returned annotated with the cell label (`fmt.Errorf("cell %s: %w", ...)`).
The first component records the cells actually dispatched, the second the
accumulated ops or the annotated error. -/
def processCells (reg : Registry) (sheet : String) :
    List CellEntry → List CellEntry × Except String (List Op)
  | [] => ([], Except.ok [])
  | cell :: rest =>
    if cell.value = "" then processCells reg sheet rest
    else
      let res := Registry.Process reg ⟨sheet, cell.row, cell.col, cell.value⟩
      match res.2.1 with
      | some err =>
        ([cell], Except.error ("cell " ++ CellName cell.row cell.col ++ ": " ++ err))
      | none =>
        let r := processCells reg sheet rest
        (cell :: r.1,
          match r.2 with
          | Except.ok ops => Except.ok (res.2.2 ++ ops)
          | Except.error e => Except.error e)

/-- `Processor.processSheet`. -/
def processSheet (reg : Registry) (sheet : String) (rows : List (List String)) :
    List CellEntry × Except String (List Op) :=
  processCells reg sheet (gridCells rows)

/-- `Processor.process`: every sheet in order; a sheet error is annotated
with the sheet name (`fmt.Errorf("sheet %q: %w", ...)`) and aborts the
pass, which then returns no result bytes (the error constructor carries no
ops). -/
def processSheets (reg : Registry) :
    List (String × List (List String)) → Except String (List Op)
  | [] => Except.ok []
  | (sheet, rows) :: rest =>
    match (processSheet reg sheet rows).2 with
    | Except.error e => Except.error ("sheet \"" ++ sheet ++ "\": " ++ e)
    | Except.ok ops =>
      match processSheets reg rest with
      | Except.ok more => Except.ok (ops ++ more)
      | Except.error e => Except.error e

theorem processCells_error (reg : Registry) (sheet : String)
    (cell : CellEntry) (err : String) (hne : cell.value ≠ "")
    (herr : (Registry.Process reg
      ⟨sheet, cell.row, cell.col, cell.value⟩).2.1 = some err) :
    ∀ cs1 cs2 : List CellEntry,
      (∀ c ∈ cs1, c.value = "" ∨
        (Registry.Process reg ⟨sheet, c.row, c.col, c.value⟩).2.1 = none) →
      processCells reg sheet (cs1 ++ cell :: cs2) =
        (cs1.filter (fun c => c.value != "") ++ [cell],
         Except.error ("cell " ++ CellName cell.row cell.col ++ ": " ++ err)) := by
  intro cs1
  induction cs1 with
  | nil =>
    intro cs2 _
    rw [List.nil_append, processCells]
    simp only [if_neg hne, herr]
    simp
  | cons c t ih =>
    intro cs2 hok
    have hc := hok c (List.mem_cons_self c t)
    rw [List.cons_append, processCells]
    by_cases hv : c.value = ""
    · rw [if_pos hv, ih cs2 (fun x hx => hok x (List.mem_cons_of_mem c hx))]
      simp [List.filter_cons, hv]
    · rw [if_neg hv]
      rcases hc with hc | hc
      · exact absurd hc hv
      · simp only [hc]
        rw [ih cs2 (fun x hx => hok x (List.mem_cons_of_mem c hx))]
        simp [List.filter_cons, hv]

/-- C6: if the scan of a sheet reaches a non-empty cell whose dispatch
errors while every earlier cell was empty or dispatched cleanly, the pass
stops at that cell — the cells dispatched are exactly the earlier
non-empty ones plus the offending cell, nothing after it — the sheet scan
returns the error annotated with the cell label, and the whole
multi-sheet pass returns the error further annotated with the sheet name
and produces no result ops (later sheets are never scanned). -/
theorem c6_abort_on_error (reg : Registry) (sheetName : String)
    (grid : List (List String)) (cs1 : List CellEntry) (cell : CellEntry)
    (cs2 : List CellEntry) (err : String)
    (rest : List (String × List (List String)))
    (hsplit : gridCells grid = cs1 ++ cell :: cs2)
    (hok : ∀ c ∈ cs1, c.value = "" ∨
      (Registry.Process reg ⟨sheetName, c.row, c.col, c.value⟩).2.1 = none)
    (hne : cell.value ≠ "")
    (herr : (Registry.Process reg
      ⟨sheetName, cell.row, cell.col, cell.value⟩).2.1 = some err) :
    (processSheet reg sheetName grid).1 =
      cs1.filter (fun c => c.value != "") ++ [cell] ∧
    (processSheet reg sheetName grid).2 =
      Except.error ("cell " ++ CellName cell.row cell.col ++ ": " ++ err) ∧
    processSheets reg ((sheetName, grid) :: rest) =
      Except.error ("sheet \"" ++ sheetName ++ "\": cell " ++
        CellName cell.row cell.col ++ ": " ++ err) := by
  have hmain := processCells_error reg sheetName cell err hne herr cs1 cs2 hok
  have hps : processSheet reg sheetName grid =
      (cs1.filter (fun c => c.value != "") ++ [cell],
       Except.error ("cell " ++ CellName cell.row cell.col ++ ": " ++ err)) := by
    rw [processSheet, hsplit, hmain]
  refine ⟨by rw [hps], by rw [hps], ?_⟩
  rw [processSheets, hps]
  simp only [String.append_assoc]
  rw [← String.append_assoc ("\": ") ("cell "),
    show ("\": " : String) ++ "cell " = "\": cell " from rfl]

/-- Witness for C6: a three-cell grid whose last cell errors; the empty
cell is skipped, the scan stops at the offending cell, and the pass error
names sheet "Sh" and cell A2. -/
theorem c6_witness :
    (processSheet ⟨[⟨"{{boom}}", fun _ => Except.error "kaput"⟩]⟩ "Sh"
        [["ok", ""], ["{{boom}}x"]]).1 =
      ([⟨0, 0, "ok"⟩, ⟨0, 1, ""⟩] : List CellEntry).filter
        (fun c => c.value != "") ++ [⟨1, 0, "{{boom}}x"⟩] ∧
    (processSheet ⟨[⟨"{{boom}}", fun _ => Except.error "kaput"⟩]⟩ "Sh"
        [["ok", ""], ["{{boom}}x"]]).2 =
      Except.error ("cell " ++ CellName 1 0 ++ ": " ++ "kaput") ∧
    processSheets ⟨[⟨"{{boom}}", fun _ => Except.error "kaput"⟩]⟩
        [("Sh", [["ok", ""], ["{{boom}}x"]])] =
      Except.error ("sheet \"" ++ "Sh" ++ "\": cell " ++ CellName 1 0 ++
        ": " ++ "kaput") :=
  c6_abort_on_error ⟨[⟨"{{boom}}", fun _ => Except.error "kaput"⟩]⟩ "Sh"
    [["ok", ""], ["{{boom}}x"]] [⟨0, 0, "ok"⟩, ⟨0, 1, ""⟩] ⟨1, 0, "{{boom}}x"⟩
    [] "kaput" [] (by decide) (by decide) (by decide) (by decide)

end Rast
